import Mathlib

/-!
# retry-go: the bounded retry loop

A shallow embedding of `retry.go` (package `service`) and of the option
setters of `options.go` (package `retry`).

* `time.Duration` is an integer number of nanoseconds, `int` is an integer.
* The Go `error` returned by the operation is a value of a type `E`; the
  result `nil` of the operation is `none`.
* The operation `op` is a closure with effects: it is given as the sequence
  of its results, `op k` being what its `(k+1)`-th invocation returns.
* The channel `timeout` is given as the sequence of what the non-blocking
  `select` observes: `timeout k` says whether the `(k+1)`-th `select` of
  the run finds the channel ready.
* The effects of a run (number of `select`s, number of invocations of `op`,
  the calls of `time.Sleep`) are recorded in `Effects`.
* The `for` loop is given fuel: `none` means the fuel ran out before the
  loop returned.
-/

namespace retry

/-- The struct `retryOptions` of `options.go`. -/
structure retryOptions (E : Type) where
  Timeout : Int
  MaxTries : Int
  Checker : Option (E → Bool)
  Sleep : Int

/-- The type `RetryOption` of `options.go`: `func(options *retryOptions)`. -/
abbrev RetryOption (E : Type) := retryOptions E → retryOptions E

/-- Timeout of `options.go`: `options.Timeout = d`. -/
def Timeout {E : Type} (d : Int) : RetryOption E :=
  fun options => { options with Timeout := d }

/-- MaxTries of `options.go`: `options.MaxTries = tries`. -/
def MaxTries {E : Type} (tries : Int) : RetryOption E :=
  fun options => { options with MaxTries := tries }

/-- RetryChecker of `options.go`: `options.Checker = checker`. -/
def RetryChecker {E : Type} (checker : Option (E → Bool)) : RetryOption E :=
  fun options => { options with Checker := checker }

/-- Sleep of `options.go`: `options.Sleep = d`. -/
def Sleep {E : Type} (d : Int) : RetryOption E :=
  fun options => { options with Sleep := d }

end retry

namespace service

/-- One second as a `time.Duration` (nanoseconds). -/
def Second : Int := 1000000000

/-- The constant `DefaultMaxTries = 3`. -/
def DefaultMaxTries : Int := 3

/-- The constant `DefaultTimeout = time.Duration(15 * time.Second)`. -/
def DefaultTimeout : Int := 15 * Second

/-- The struct `retryOptions` of `retry.go`; a nil `Retryer` is `none`. -/
structure retryOptions (E : Type) where
  Timeout : Int
  MaxTries : Int
  Retryer : Option (E → Bool)
  Sleep : Int

/-- The type `RetryOption` of `retry.go`: `func(options *retryOptions)`. -/
abbrev RetryOption (E : Type) := retryOptions E → retryOptions E

/-- RetryTimeout: `options.Timeout = d`. -/
def RetryTimeout {E : Type} (d : Int) : RetryOption E :=
  fun options => { options with Timeout := d }

/-- MaxTries: `options.MaxTries = tries`. -/
def MaxTries {E : Type} (tries : Int) : RetryOption E :=
  fun options => { options with MaxTries := tries }

/-- Retryer: `options.Retryer = retryer`. -/
def Retryer {E : Type} (retryer : Option (E → Bool)) : RetryOption E :=
  fun options => { options with Retryer := retryer }

/-- Sleep: `options.Sleep = d`. -/
def Sleep {E : Type} (d : Int) : RetryOption E :=
  fun options => { options with Sleep := d }

/-- The predicate `errgo.Any`, which accepts every error. -/
def errgoAny {E : Type} : E → Bool := fun _ => true

/-- newRetryOptions: the defaults (`Sleep` is left at its zero value), then
every option applied in order. -/
def newRetryOptions {E : Type} (options : List (RetryOption E)) : retryOptions E :=
  options.foldl (fun state option => option state)
    { Timeout := DefaultTimeout, MaxTries := DefaultMaxTries,
      Retryer := some errgoAny, Sleep := 0 }

/-- The four `return` statements of `retry`, in the order of the source. -/
inductive Result (E : Type) where
  /-- The statement `return errgo.Mask(TimeoutError, errgo.Any)`. -/
  | maskTimeoutError : Result E
  /-- The statement `return errgo.WithCausef(lastError, MaxRetriesReached,
  "Tries %d > %d", tryCounter, options.MaxTries)`. -/
  | withCausefMaxRetriesReached (lastError : E) (tryCounter : Nat) (maxTries : Int) : Result E
  /-- The statement `return errgo.Mask(lastError, errgo.Any)`. -/
  | mask (lastError : E) : Result E
  /-- The statement `return nil`. -/
  | nil : Result E
  deriving DecidableEq, Repr

/-- The effects of a run of `retry`: how many `select`s it made on the
timeout channel, how many times it invoked `op`, and its calls of
`time.Sleep`, each as the number of invocations made before it and the
duration slept, in the order they happened. -/
structure Effects where
  selects : Nat
  calls : Nat
  sleeps : List (Nat × Int)
  deriving DecidableEq, Repr

/-- No effect yet. -/
def Effects.init : Effects := { selects := 0, calls := 0, sleeps := [] }

/-- The total duration handed to `time.Sleep`. -/
def Effects.slept (w : Effects) : Int := (w.sleeps.map Prod.snd).sum

/-- The condition `options.Retryer != nil && options.Retryer(lastError)`. -/
def retryerAccepts {E : Type} (options : retryOptions E) (lastError : E) : Bool :=
  match options.Retryer with
  | none => false
  | some retryer => retryer lastError

/-- The `for` loop of `retry`, one iteration per unit of fuel. -/
def retryLoop {E : Type} (options : retryOptions E) (op : Nat → Option E)
    (timeout : Nat → Bool) : Nat → Nat → Effects → Option (Result E × Effects)
  | 0, _, _ => none
  | fuel + 1, tryCounter, w =>
    -- select { case <-timeout: ...; default: }
    let w1 : Effects := { w with selects := w.selects + 1 }
    if timeout w.selects then
      some (Result.maskTimeoutError, w1)
    else
      -- tryCounter++; lastError := op()
      let tryCounter := tryCounter + 1
      let w2 : Effects := { w1 with calls := w1.calls + 1 }
      match op w1.calls with
      | some lastError =>
        if retryerAccepts options lastError then
          if options.MaxTries ≤ (tryCounter : Int) then
            some (Result.withCausefMaxRetriesReached lastError tryCounter options.MaxTries, w2)
          else
            let w3 : Effects :=
              if 0 < options.Sleep then
                { w2 with sleeps := w2.sleeps ++ [(w2.calls, options.Sleep)] }
              else w2
            retryLoop options op timeout fuel tryCounter w3
        else
          some (Result.mask lastError, w2)
      | none => some (Result.nil, w2)

/-- A channel of `time.After(d)` whose value is delivered as soon as `d` has
elapsed, as the `select`s of a run see it, `clock k` being the time elapsed
between the call of `time.After` and the `(k+1)`-th `select`. This is one of
the behaviours `time.After` allows: it sends after at least `d`, so a select
may also find the channel empty although `d` has elapsed; the loop takes
any channel. -/
def timeAfter (clock : Nat → Int) (d : Int) : Nat → Bool :=
  fun k => decide (d ≤ clock k)

/-- The body of `retry` once the options are known: the channel is made
from `options.Timeout`, the counter starts at 0, and the loop runs. -/
def retryWith {E : Type} (options : retryOptions E) (op : Nat → Option E)
    (after : Int → Nat → Bool) (fuel : Nat) : Option (Result E × Effects) :=
  let timeout := after options.Timeout
  retryLoop options op timeout fuel 0 Effects.init

/-- The function `retry`. -/
def retry {E : Type} (op : Nat → Option E) (retryOptions : List (RetryOption E))
    (after : Int → Nat → Bool) (fuel : Nat) : Option (Result E × Effects) :=
  let options := newRetryOptions retryOptions
  retryWith options op after fuel

/-- The calls of `time.Sleep` made by `k` consecutive retried iterations, the
first of which follows `c` invocations of `op`. -/
def retrySleeps (sleep : Int) (c k : Nat) : List (Nat × Int) :=
  if 0 < sleep then (List.range k).map (fun j => (c + j + 1, sleep)) else []

/-- The shape of a finished run of the loop entered with `tryCounter = t` and
effects `w`: `k` iterations are retried (the channel is not ready, `op`
fails, the error is accepted and the counter is below `MaxTries`), then one
iteration returns `r`, leaving the effects `w2`. -/
structure RunShape {E : Type} (options : retryOptions E) (op : Nat → Option E)
    (timeout : Nat → Bool) (t : Nat) (w : Effects) (k : Nat) (r : Result E)
    (w2 : Effects) : Prop where
  retried : ∀ j, j < k → timeout (w.selects + j) = false ∧
    ∃ e, op (w.calls + j) = some e ∧ retryerAccepts options e = true ∧
      ((t + j + 1 : Nat) : Int) < options.MaxTries
  selects : w2.selects = w.selects + k + 1
  sleeps : w2.sleeps = w.sleeps ++ retrySleeps options.Sleep w.calls k
  last :
    (timeout (w.selects + k) = true ∧ r = Result.maskTimeoutError ∧
      w2.calls = w.calls + k) ∨
    (timeout (w.selects + k) = false ∧ w2.calls = w.calls + k + 1 ∧
      ((op (w.calls + k) = none ∧ r = Result.nil) ∨
       (∃ e, op (w.calls + k) = some e ∧ retryerAccepts options e = false ∧
          r = Result.mask e) ∨
       (∃ e, op (w.calls + k) = some e ∧ retryerAccepts options e = true ∧
          options.MaxTries ≤ ((t + k + 1 : Nat) : Int) ∧
          r = Result.withCausefMaxRetriesReached e (t + k + 1) options.MaxTries)))

/-- The error of the operation that a `return` statement of `retry` hands to
`errgo`, if it hands one. -/
def Result.lastError? {E : Type} : Result E → Option E
  | Result.maskTimeoutError => none
  | Result.withCausefMaxRetriesReached lastError _ _ => some lastError
  | Result.mask lastError => some lastError
  | Result.nil => none

/-- A Go call `f(err)` of a function value: calling a nil function panics,
which is `none`. -/
def callFunc {E : Type} (f : Option (E → Bool)) (err : E) : Option Bool :=
  match f with
  | none => none
  | some g => some (g err)

/-- The condition `options.Retryer != nil && options.Retryer(lastError)`
evaluated as Go does, left to right and the call only when the left operand
is true; `none` is a panic. -/
def retryCondition {E : Type} (options : retryOptions E) (lastError : E) : Option Bool :=
  if options.Retryer.isSome then callFunc options.Retryer lastError else some false

/-- The four fields of `retryOptions`. -/
inductive Field where
  | Timeout : Field
  | MaxTries : Field
  | Retryer : Field
  | Sleep : Field
  deriving DecidableEq, Repr

/-- The options that the four setters of `retry.go` build: the setter and
its argument. -/
inductive Setter (E : Type) where
  | timeout (d : Int) : Setter E
  | maxTries (tries : Int) : Setter E
  | retryer (f : Option (E → Bool)) : Setter E
  | sleep (d : Int) : Setter E

/-- The `RetryOption` a setter builds. -/
def Setter.toOption {E : Type} : Setter E → RetryOption E
  | Setter.timeout d => RetryTimeout d
  | Setter.maxTries tries => MaxTries tries
  | Setter.retryer f => Retryer f
  | Setter.sleep d => Sleep d

/-- The field a setter targets. -/
def Setter.field {E : Type} : Setter E → Field
  | Setter.timeout _ => Field.Timeout
  | Setter.maxTries _ => Field.MaxTries
  | Setter.retryer _ => Field.Retryer
  | Setter.sleep _ => Field.Sleep

/-- The argument of the last setter of the list that targets `Timeout`. -/
def lastTimeout {E : Type} (l : List (Setter E)) : Option Int :=
  l.reverse.findSome? fun s =>
    match s with
    | Setter.timeout d => some d
    | _ => none

/-- The argument of the last setter of the list that targets `MaxTries`. -/
def lastMaxTries {E : Type} (l : List (Setter E)) : Option Int :=
  l.reverse.findSome? fun s =>
    match s with
    | Setter.maxTries tries => some tries
    | _ => none

/-- The argument of the last setter of the list that targets `Retryer`. -/
def lastRetryer {E : Type} (l : List (Setter E)) : Option (Option (E → Bool)) :=
  l.reverse.findSome? fun s =>
    match s with
    | Setter.retryer f => some f
    | _ => none

/-- The argument of the last setter of the list that targets `Sleep`. -/
def lastSleep {E : Type} (l : List (Setter E)) : Option Int :=
  l.reverse.findSome? fun s =>
    match s with
    | Setter.sleep d => some d
    | _ => none

/-- The configuration in which every field has the value set by the last
setter of the list that targets it, or its default if none does. -/
def lastSetterWins {E : Type} (l : List (Setter E)) : retryOptions E :=
  { Timeout := (lastTimeout l).getD DefaultTimeout,
    MaxTries := (lastMaxTries l).getD DefaultMaxTries,
    Retryer := (lastRetryer l).getD (some errgoAny),
    Sleep := (lastSleep l).getD 0 }

/-! ## The loop, one iteration at a time -/

theorem retrySleeps_zero (sleep : Int) (c : Nat) : retrySleeps sleep c 0 = [] := by
  simp [retrySleeps]

theorem retrySleeps_succ (sleep : Int) (c k : Nat) :
    retrySleeps sleep c (k + 1)
      = (if 0 < sleep then [(c + 1, sleep)] else []) ++ retrySleeps sleep (c + 1) k := by
  unfold retrySleeps
  split
  · rw [List.range_succ_eq_map]
    simp only [List.map_cons, List.map_map, List.singleton_append, Nat.add_zero]
    congr 1
    apply List.map_congr_left
    intro j _
    simp only [Function.comp, Nat.succ_eq_add_one]
    congr 1
    omega
  · rfl

theorem retryLoop_zero {E : Type} (options : retryOptions E) (op : Nat → Option E)
    (timeout : Nat → Bool) (t : Nat) (w : Effects) :
    retryLoop options op timeout 0 t w = none := rfl

theorem retryLoop_ready {E : Type} (options : retryOptions E) (op : Nat → Option E)
    (timeout : Nat → Bool) (fuel t : Nat) (w : Effects) (h : timeout w.selects = true) :
    retryLoop options op timeout (fuel + 1) t w
      = some (Result.maskTimeoutError, { w with selects := w.selects + 1 }) := by
  simp [retryLoop, h]

theorem retryLoop_success {E : Type} (options : retryOptions E) (op : Nat → Option E)
    (timeout : Nat → Bool) (fuel t : Nat) (w : Effects) (h : timeout w.selects = false)
    (hop : op w.calls = none) :
    retryLoop options op timeout (fuel + 1) t w
      = some (Result.nil, { w with selects := w.selects + 1, calls := w.calls + 1 }) := by
  simp [retryLoop, h, hop]

theorem retryLoop_rejected {E : Type} (options : retryOptions E) (op : Nat → Option E)
    (timeout : Nat → Bool) (fuel t : Nat) (w : Effects) (e : E)
    (h : timeout w.selects = false) (hop : op w.calls = some e)
    (hr : retryerAccepts options e = false) :
    retryLoop options op timeout (fuel + 1) t w
      = some (Result.mask e, { w with selects := w.selects + 1, calls := w.calls + 1 }) := by
  simp [retryLoop, h, hop, hr]

theorem retryLoop_exhausted {E : Type} (options : retryOptions E) (op : Nat → Option E)
    (timeout : Nat → Bool) (fuel t : Nat) (w : Effects) (e : E)
    (h : timeout w.selects = false) (hop : op w.calls = some e)
    (hr : retryerAccepts options e = true) (hm : options.MaxTries ≤ ((t + 1 : Nat) : Int)) :
    retryLoop options op timeout (fuel + 1) t w
      = some (Result.withCausefMaxRetriesReached e (t + 1) options.MaxTries,
          { w with selects := w.selects + 1, calls := w.calls + 1 }) := by
  simp only [retryLoop, h, hop, hr, if_true, if_pos hm]
  simp

theorem retryLoop_again {E : Type} (options : retryOptions E) (op : Nat → Option E)
    (timeout : Nat → Bool) (fuel t : Nat) (w : Effects) (e : E)
    (h : timeout w.selects = false) (hop : op w.calls = some e)
    (hr : retryerAccepts options e = true) (hm : ((t + 1 : Nat) : Int) < options.MaxTries) :
    retryLoop options op timeout (fuel + 1) t w
      = retryLoop options op timeout fuel (t + 1)
          { selects := w.selects + 1, calls := w.calls + 1,
            sleeps := w.sleeps ++ retrySleeps options.Sleep w.calls 1 } := by
  have hm2 : ¬ options.MaxTries ≤ ((t + 1 : Nat) : Int) := not_le.mpr hm
  simp only [retryLoop, h, hop, hr, if_true, if_neg hm2]
  by_cases hs : 0 < options.Sleep
  · simp [retrySleeps, hs, List.range_succ]
  · simp [retrySleeps, hs]

/-! ## Runs of retried iterations, and the shape of every finished run -/

theorem retryLoop_retried {E : Type} (options : retryOptions E) (op : Nat → Option E)
    (timeout : Nat → Bool) :
    ∀ (k fuel t : Nat) (w : Effects),
      (∀ j, j < k → timeout (w.selects + j) = false ∧
        ∃ e, op (w.calls + j) = some e ∧ retryerAccepts options e = true ∧
          ((t + j + 1 : Nat) : Int) < options.MaxTries) →
      retryLoop options op timeout (fuel + k) t w
        = retryLoop options op timeout fuel (t + k)
            { selects := w.selects + k, calls := w.calls + k,
              sleeps := w.sleeps ++ retrySleeps options.Sleep w.calls k } := by
  intro k
  induction k with
  | zero =>
    intro fuel t w _
    simp [retrySleeps_zero]
  | succ k ih =>
    intro fuel t w h
    obtain ⟨h0, e, he, hr, hm⟩ := h 0 (Nat.succ_pos k)
    have hstep := retryLoop_again options op timeout (fuel + k) t w e h0 he hr hm
    rw [show fuel + (k + 1) = fuel + k + 1 from rfl, hstep]
    rw [ih fuel (t + 1) _ ?_]
    · rw [retrySleeps_succ options.Sleep w.calls k, retrySleeps_succ options.Sleep w.calls 0,
        retrySleeps_zero]
      simp only [List.append_nil, List.append_assoc, Nat.add_assoc, Nat.add_comm 1 k]
    · intro j hj
      obtain ⟨hj0, e2, he2, hr2, hm2⟩ := h (j + 1) (Nat.succ_lt_succ hj)
      refine ⟨?_, e2, ?_, hr2, ?_⟩
      · simpa [Nat.add_assoc, Nat.add_comm 1 j] using hj0
      · simpa [Nat.add_assoc, Nat.add_comm 1 j] using he2
      · have : t + 1 + j + 1 = t + (j + 1) + 1 := by omega
        rw [this]; exact hm2

theorem retryLoop_finishes {E : Type} (options : retryOptions E) (op : Nat → Option E)
    (timeout : Nat → Bool) :
    ∀ (fuel t : Nat) (w : Effects), 1 ≤ fuel → (options.MaxTries - t).toNat ≤ fuel →
      ∃ k r w2, retryLoop options op timeout fuel t w = some (r, w2) ∧
        RunShape options op timeout t w k r w2 := by
  intro fuel
  induction fuel with
  | zero => intro t w h; omega
  | succ fuel ih =>
    intro t w _ hfuel
    by_cases hto : timeout w.selects = true
    · exact ⟨0, _, _, retryLoop_ready options op timeout fuel t w hto,
        ⟨fun j hj => absurd hj (Nat.not_lt_zero j), rfl, by simp [retrySleeps_zero],
          Or.inl ⟨hto, rfl, rfl⟩⟩⟩
    · have hto2 : timeout w.selects = false := by simpa using hto
      cases hop : op w.calls with
      | none =>
        exact ⟨0, _, _, retryLoop_success options op timeout fuel t w hto2 hop,
          ⟨fun j hj => absurd hj (Nat.not_lt_zero j), rfl, by simp [retrySleeps_zero],
            Or.inr ⟨hto2, rfl, Or.inl ⟨hop, rfl⟩⟩⟩⟩
      | some e =>
        cases hr : retryerAccepts options e with
        | false =>
          exact ⟨0, _, _, retryLoop_rejected options op timeout fuel t w e hto2 hop hr,
            ⟨fun j hj => absurd hj (Nat.not_lt_zero j), rfl, by simp [retrySleeps_zero],
              Or.inr ⟨hto2, rfl, Or.inr (Or.inl ⟨e, hop, hr, rfl⟩)⟩⟩⟩
        | true =>
          by_cases hm : options.MaxTries ≤ ((t + 1 : Nat) : Int)
          · exact ⟨0, _, _, retryLoop_exhausted options op timeout fuel t w e hto2 hop hr hm,
              ⟨fun j hj => absurd hj (Nat.not_lt_zero j), rfl, by simp [retrySleeps_zero],
                Or.inr ⟨hto2, rfl, Or.inr (Or.inr ⟨e, hop, hr, hm, rfl⟩)⟩⟩⟩
          · have hm2 : ((t + 1 : Nat) : Int) < options.MaxTries := not_le.mp hm
            have hf1 : 1 ≤ fuel := by omega
            have hf2 : (options.MaxTries - ((t + 1 : Nat) : Int)).toNat ≤ fuel := by omega
            obtain ⟨k, r, w2, hrun, hshape⟩ := ih (t + 1)
              { selects := w.selects + 1, calls := w.calls + 1,
                sleeps := w.sleeps ++ retrySleeps options.Sleep w.calls 1 } hf1 hf2
            refine ⟨k + 1, r, w2, ?_, ?_⟩
            · rw [retryLoop_again options op timeout fuel t w e hto2 hop hr hm2]
              exact hrun
            · have e1 : ∀ j, w.selects + 1 + j = w.selects + (j + 1) := fun j => by omega
              have e2 : ∀ j, w.calls + 1 + j = w.calls + (j + 1) := fun j => by omega
              have e3 : ∀ j, t + 1 + j + 1 = t + (j + 1) + 1 := fun j => by omega
              constructor
              · intro j hj
                cases j with
                | zero => exact ⟨hto2, e, hop, hr, hm2⟩
                | succ j =>
                  have := hshape.retried j (Nat.lt_of_succ_lt_succ hj)
                  simpa only [e1, e2, e3] using this
              · have := hshape.selects
                simp only at this
                omega
              · rw [hshape.sleeps, retrySleeps_succ options.Sleep w.calls k,
                  retrySleeps_succ options.Sleep w.calls 0, retrySleeps_zero]
                simp
              · have := hshape.last
                simpa only [e1, e2, e3] using this

@[simp] theorem Effects.init_selects : Effects.init.selects = 0 := rfl

@[simp] theorem Effects.init_calls : Effects.init.calls = 0 := rfl

@[simp] theorem Effects.init_sleeps : Effects.init.sleeps = [] := rfl

theorem retryWith_eq {E : Type} (options : retryOptions E) (op : Nat → Option E)
    (after : Int → Nat → Bool) (fuel : Nat) :
    retryWith options op after fuel
      = retryLoop options op (after options.Timeout) fuel 0 Effects.init := rfl

theorem retryWith_finishes {E : Type} (options : retryOptions E) (op : Nat → Option E)
    (after : Int → Nat → Bool) (fuel : Nat) (h1 : 1 ≤ fuel)
    (hfuel : options.MaxTries.toNat ≤ fuel) :
    ∃ k r w, retryWith options op after fuel = some (r, w) ∧
      RunShape options op (after options.Timeout) 0 Effects.init k r w := by
  apply retryLoop_finishes options op (after options.Timeout) fuel 0 Effects.init h1
  simpa using hfuel

/-- The hypotheses of `retryLoop_retried` for a run from the start whose first
`k` iterations are retried. -/
theorem retried_from_start {E : Type} (options : retryOptions E) (op : Nat → Option E)
    (timeout : Nat → Bool) (k : Nat) (hmax : (k : Int) < options.MaxTries)
    (hop : ∀ j, j < k → ∃ e, op j = some e ∧ retryerAccepts options e = true)
    (hto : ∀ j, j < k → timeout j = false) :
    ∀ j, j < k → timeout (Effects.init.selects + j) = false ∧
      ∃ e, op (Effects.init.calls + j) = some e ∧ retryerAccepts options e = true ∧
        ((0 + j + 1 : Nat) : Int) < options.MaxTries := by
  intro j hj
  obtain ⟨e, he, hr⟩ := hop j hj
  refine ⟨by simpa using hto j hj, e, by simpa using he, hr, ?_⟩
  have : ((0 + j + 1 : Nat) : Int) ≤ (k : Int) := by
    have : 0 + j + 1 ≤ k := by omega
    exact_mod_cast this
  omega

/-! ## The claims -/

/-- C1: under a configuration with `MaxTries ≥ 1`, whatever the operation
returns at each invocation, whatever the retry predicate and whatever the
timeout channel does, `retry` returns and has invoked the operation at most
`MaxTries` times. -/
theorem retry_invokes_at_most_maxTries {E : Type} (options : retryOptions E)
    (op : Nat → Option E) (after : Int → Nat → Bool) (fuel : Nat)
    (hmax : 1 ≤ options.MaxTries) (hfuel : options.MaxTries.toNat ≤ fuel) :
    ∃ r w, retryWith options op after fuel = some (r, w) ∧
      (w.calls : Int) ≤ options.MaxTries := by
  obtain ⟨k, r, w, hrun, hshape⟩ :=
    retryWith_finishes options op after fuel (by omega) hfuel
  refine ⟨r, w, hrun, ?_⟩
  have hk : (k : Int) + 1 ≤ options.MaxTries := by
    cases k with
    | zero => simpa using hmax
    | succ k =>
      obtain ⟨_, _, _, _, hlt⟩ := hshape.retried k (Nat.lt_succ_self k)
      push_cast at hlt ⊢
      omega
  rcases hshape.last with ⟨_, _, hc⟩ | ⟨_, hc, _⟩
  · rw [hc]; simp only [Effects.init_calls]; push_cast; omega
  · rw [hc]; simp only [Effects.init_calls]; push_cast; omega

/-- Witness of C1: three tries allowed, an operation that always fails, a
channel that is never ready. -/
theorem retry_invokes_at_most_maxTries_witness :
    (1 : Int) ≤ 3 ∧ ∃ r w, retryWith
      ({ Timeout := 5, MaxTries := 3, Retryer := some errgoAny, Sleep := 0 } : retryOptions Nat)
      (fun _ => some 7) (fun _ _ => false) 3 = some (r, w) ∧ (w.calls : Int) ≤ 3 :=
  ⟨by decide, retry_invokes_at_most_maxTries
    ({ Timeout := 5, MaxTries := 3, Retryer := some errgoAny, Sleep := 0 } : retryOptions Nat)
    (fun _ => some 7) (fun _ _ => false) 3 (by decide) (by decide)⟩

/-- C2: under `MaxTries = N ≥ 1`, when each of the first `N` invocations fails
with an error the predicate accepts and the channel is not ready at any of
the first `N` selects, `retry` invokes the operation exactly `N` times and
returns `MaxRetriesReached` around the error of the `N`-th invocation, with
the attempt count `N` in its message. -/
theorem retry_always_failing_exhausts {E : Type} (options : retryOptions E)
    (op : Nat → Option E) (after : Int → Nat → Bool) (fuel N : Nat)
    (hN : 1 ≤ N) (hmax : options.MaxTries = (N : Int))
    (hop : ∀ j, j < N → ∃ e, op j = some e ∧ retryerAccepts options e = true)
    (hto : ∀ j, j < N → after options.Timeout j = false)
    (hfuel : N ≤ fuel) :
    ∃ e, op (N - 1) = some e ∧
      retryWith options op after fuel
        = some (Result.withCausefMaxRetriesReached e N (N : Int),
            { selects := N, calls := N,
              sleeps := retrySleeps options.Sleep 0 (N - 1) }) := by
  obtain ⟨e, he, hr⟩ := hop (N - 1) (by omega)
  refine ⟨e, he, ?_⟩
  have hsplit : fuel = (fuel - N) + 1 + (N - 1) := by omega
  have hretried := retryLoop_retried options op (after options.Timeout) (N - 1)
    (fuel - N + 1) 0 Effects.init
    (retried_from_start options op (after options.Timeout) (N - 1)
      (by rw [hmax]; exact_mod_cast (by omega : N - 1 < N))
      (fun j hj => hop j (by omega)) (fun j hj => hto j (by omega)))
  rw [retryWith_eq, hsplit, hretried]
  simp only [Effects.init_selects, Effects.init_calls, Effects.init_sleeps, Nat.zero_add,
    List.nil_append]
  rw [retryLoop_exhausted options op (after options.Timeout) (fuel - N) (N - 1) _ e
    (hto (N - 1) (by omega)) he hr (by rw [hmax]; exact_mod_cast (by omega : N ≤ N - 1 + 1))]
  have hN1 : N - 1 + 1 = N := by omega
  simp only [hN1, hmax]

/-- Witness of C2: `MaxTries = 3` and an operation that always fails. -/
theorem retry_always_failing_exhausts_witness :
    ∃ e, (fun _ => some 7 : Nat → Option Nat) (3 - 1) = some e ∧
      retryWith
        ({ Timeout := 5, MaxTries := 3, Retryer := some errgoAny, Sleep := 0 } : retryOptions Nat)
        (fun _ => some 7) (fun _ _ => false) 4
        = some (Result.withCausefMaxRetriesReached e 3 3,
            { selects := 3, calls := 3, sleeps := retrySleeps 0 0 (3 - 1) }) :=
  retry_always_failing_exhausts
    ({ Timeout := 5, MaxTries := 3, Retryer := some errgoAny, Sleep := 0 } : retryOptions Nat)
    (fun _ => some 7) (fun _ _ => false) 4 3 (by decide) rfl
    (fun _ _ => ⟨7, rfl, rfl⟩) (fun _ _ => rfl) (by decide)

/-- C3, as amended: under any configuration (any `MaxTries`), when the
channel is not ready at the first select and the predicate rejects the error
of the first invocation (or there is no predicate), `retry` invokes the
operation exactly once and returns that error, masked: neither
`MaxRetriesReached` nor `TimeoutError`. -/
theorem retry_rejected_error_returned {E : Type} (options : retryOptions E)
    (op : Nat → Option E) (after : Int → Nat → Bool) (fuel : Nat) (e : E)
    (hto : after options.Timeout 0 = false) (hop : op 0 = some e)
    (hr : retryerAccepts options e = false) (hfuel : 1 ≤ fuel) :
    retryWith options op after fuel
      = some (Result.mask e, { selects := 1, calls := 1, sleeps := [] }) := by
  obtain ⟨fuel, rfl⟩ : ∃ n, fuel = n + 1 := ⟨fuel - 1, by omega⟩
  rw [retryWith_eq,
    retryLoop_rejected options op (after options.Timeout) fuel 0 Effects.init e hto hop hr]
  rfl

/-- Witness of C3 as amended: one try allowed, a predicate that rejects
every error. -/
theorem retry_rejected_error_returned_witness :
    retryWith
      ({ Timeout := 5, MaxTries := 1, Retryer := some (fun _ => false), Sleep := 0 } :
        retryOptions Nat)
      (fun _ => some 7) (timeAfter (fun _ => 0)) 1
      = some (Result.mask 7, { selects := 1, calls := 1, sleeps := [] }) :=
  retry_rejected_error_returned
    ({ Timeout := 5, MaxTries := 1, Retryer := some (fun _ => false), Sleep := 0 } :
      retryOptions Nat)
    (fun _ => some 7) (timeAfter (fun _ => 0)) 1 7 (by decide) rfl rfl (by decide)

/-- Counterexample to C3 as stated: with `Timeout = 0` the predicate rejects
the error the operation returns at every invocation, yet the operation is
not invoked at all and the result is `TimeoutError`, not that error. -/
theorem retry_rejected_error_counterexample :
    retryerAccepts
        ({ Timeout := 0, MaxTries := 3, Retryer := some (fun _ => false), Sleep := 0 } :
          retryOptions Nat) 7 = false ∧
      retryWith
        ({ Timeout := 0, MaxTries := 3, Retryer := some (fun _ => false), Sleep := 0 } :
          retryOptions Nat)
        (fun _ => some 7) (timeAfter (fun _ => 0)) 3
        = some (Result.maskTimeoutError, { selects := 1, calls := 0, sleeps := [] }) ∧
      retryWith
        ({ Timeout := 0, MaxTries := 3, Retryer := some (fun _ => false), Sleep := 0 } :
          retryOptions Nat)
        (fun _ => some 7) (timeAfter (fun _ => 0)) 3
        ≠ some (Result.mask 7, { selects := 1, calls := 1, sleeps := [] }) := by
  decide

/-- C4, as amended: when the channel is ready at the first select (the
deadline has elapsed when the loop starts), `retry` returns `TimeoutError`
and has not invoked the operation, whatever the operation and the rest of
the configuration: the select comes before the first invocation. -/
theorem retry_elapsed_deadline_no_call {E : Type} (options : retryOptions E)
    (op : Nat → Option E) (after : Int → Nat → Bool) (fuel : Nat) (hfuel : 1 ≤ fuel)
    (hready : after options.Timeout 0 = true) :
    retryWith options op after fuel
      = some (Result.maskTimeoutError, { selects := 1, calls := 0, sleeps := [] }) := by
  obtain ⟨fuel, rfl⟩ : ∃ n, fuel = n + 1 := ⟨fuel - 1, by omega⟩
  rw [retryWith_eq,
    retryLoop_ready options op (after options.Timeout) fuel 0 Effects.init hready]
  rfl

/-- Witness of C4 as amended: a timeout of 5 and a first select that comes 8
after the call of `time.After`, before an operation that would succeed. -/
theorem retry_elapsed_deadline_no_call_witness :
    retryWith
      ({ Timeout := 5, MaxTries := 3, Retryer := some errgoAny, Sleep := 0 } : retryOptions Nat)
      (fun _ => none) (timeAfter (fun k => 8 + 10 * (k : Int))) 1
      = some (Result.maskTimeoutError, { selects := 1, calls := 0, sleeps := [] }) :=
  retry_elapsed_deadline_no_call
    ({ Timeout := 5, MaxTries := 3, Retryer := some errgoAny, Sleep := 0 } : retryOptions Nat)
    (fun _ => none) (timeAfter (fun k => 8 + 10 * (k : Int))) 1 (by decide) (by decide)

/-- Counterexample to C4 as stated: with `Timeout = 0` and a channel whose
value has not been delivered yet at the first select (it is ready from the
second select on), the operation is invoked once and `retry` returns nil,
not `TimeoutError`. -/
theorem retry_zero_timeout_counterexample :
    ({ Timeout := 0, MaxTries := 3, Retryer := some errgoAny, Sleep := 0 } :
        retryOptions Nat).Timeout = 0 ∧
      retryWith
        ({ Timeout := 0, MaxTries := 3, Retryer := some errgoAny, Sleep := 0 } : retryOptions Nat)
        (fun _ => none) (fun _ k => decide (1 ≤ k)) 1
        = some (Result.nil, { selects := 1, calls := 1, sleeps := [] }) ∧
      retryWith
        ({ Timeout := 0, MaxTries := 3, Retryer := some errgoAny, Sleep := 0 } : retryOptions Nat)
        (fun _ => none) (fun _ k => decide (1 ≤ k)) 1
        ≠ some (Result.maskTimeoutError, { selects := 1, calls := 0, sleeps := [] }) := by
  decide

/-- C5: under `MaxTries ≥ N ≥ 1`, when the first `N - 1` invocations fail with
errors the predicate accepts, the `N`-th succeeds and the channel is not
ready at any of the first `N` selects, `retry` returns nil and has invoked
the operation exactly `N` times. -/
theorem retry_succeeds_on_nth_try {E : Type} (options : retryOptions E)
    (op : Nat → Option E) (after : Int → Nat → Bool) (fuel N : Nat)
    (hN : 1 ≤ N) (hmax : (N : Int) ≤ options.MaxTries)
    (hfail : ∀ j, j < N - 1 → ∃ e, op j = some e ∧ retryerAccepts options e = true)
    (hok : op (N - 1) = none)
    (hto : ∀ j, j < N → after options.Timeout j = false)
    (hfuel : N ≤ fuel) :
    retryWith options op after fuel
      = some (Result.nil,
          { selects := N, calls := N, sleeps := retrySleeps options.Sleep 0 (N - 1) }) := by
  have hsplit : fuel = (fuel - N) + 1 + (N - 1) := by omega
  have hlt : ((N - 1 : Nat) : Int) < options.MaxTries := by
    have : ((N - 1 : Nat) : Int) < (N : Int) := by exact_mod_cast (by omega : N - 1 < N)
    omega
  have hretried := retryLoop_retried options op (after options.Timeout) (N - 1)
    (fuel - N + 1) 0 Effects.init
    (retried_from_start options op (after options.Timeout) (N - 1) hlt hfail
      (fun j hj => hto j (by omega)))
  rw [retryWith_eq, hsplit, hretried]
  simp only [Effects.init_selects, Effects.init_calls, Effects.init_sleeps, Nat.zero_add,
    List.nil_append]
  rw [retryLoop_success options op (after options.Timeout) (fuel - N) (N - 1) _
    (hto (N - 1) (by omega)) hok]
  have hN1 : N - 1 + 1 = N := by omega
  simp only [hN1]

/-- Witness of C5: two failures, then a success at the third of five tries. -/
theorem retry_succeeds_on_nth_try_witness :
    retryWith
      ({ Timeout := 5, MaxTries := 5, Retryer := some errgoAny, Sleep := 0 } : retryOptions Nat)
      (fun k => if k < 2 then some 7 else none) (fun _ _ => false) 3
      = some (Result.nil, { selects := 3, calls := 3, sleeps := retrySleeps 0 0 (3 - 1) }) :=
  retry_succeeds_on_nth_try
    ({ Timeout := 5, MaxTries := 5, Retryer := some errgoAny, Sleep := 0 } : retryOptions Nat)
    (fun k => if k < 2 then some 7 else none) (fun _ _ => false) 3 3 (by decide) (by decide)
    (fun j hj => ⟨7, by simp [show j < 2 from hj], rfl⟩) (by decide) (fun _ _ => rfl)
    (by decide)

/-- C6: `newRetryOptions` called with no option gives `MaxTries = 3`,
`Timeout` = 15 seconds, a predicate that accepts every error, and
`Sleep = 0`. -/
theorem newRetryOptions_defaults (E : Type) :
    (newRetryOptions ([] : List (RetryOption E))).MaxTries = 3 ∧
      (newRetryOptions ([] : List (RetryOption E))).Timeout = 15 * 1000000000 ∧
      (∃ retryer, (newRetryOptions ([] : List (RetryOption E))).Retryer = some retryer ∧
        ∀ e, retryer e = true) ∧
      (∀ e, retryerAccepts (newRetryOptions ([] : List (RetryOption E))) e = true) ∧
      (newRetryOptions ([] : List (RetryOption E))).Sleep = 0 :=
  ⟨rfl, rfl, ⟨errgoAny, rfl, fun _ => rfl⟩, fun _ => rfl, rfl⟩

/-- C7, the code at the failing input: `retry` called with no option on an
operation that always fails, the channel never ready, invokes the operation
3 times (not 5) and returns `MaxRetriesReached` with the counts 3 and 3. -/
theorem retry_no_option_tries_thrice :
    retry (fun _ => some 7) ([] : List (RetryOption Nat)) (fun _ _ => false) 5
        = some (Result.withCausefMaxRetriesReached 7 3 3,
            { selects := 3, calls := 3, sleeps := [] }) ∧
      (newRetryOptions ([] : List (RetryOption Nat))).MaxTries ≠ 5 := by
  decide

/-- C8: with `Sleep = D > 0`, when `k` invocations fail with errors the
predicate accepts and the next one succeeds (`MaxTries ≥ k + 1`, the channel
not ready at any of the `k + 1` selects), `retry` returns nil after exactly
`k + 1` invocations and exactly `k` calls of `time.Sleep`, each of `D`: one
after each of the invocations 1 to `k`, none after the last; in total it
sleeps `k * D`. -/
theorem retry_sleeps_after_each_failure {E : Type} (options : retryOptions E)
    (op : Nat → Option E) (after : Int → Nat → Bool) (fuel k : Nat) (D : Int)
    (hD : 0 < D) (hsleep : options.Sleep = D) (hmax : ((k + 1 : Nat) : Int) ≤ options.MaxTries)
    (hfail : ∀ j, j < k → ∃ e, op j = some e ∧ retryerAccepts options e = true)
    (hok : op k = none)
    (hto : ∀ j, j < k + 1 → after options.Timeout j = false)
    (hfuel : k + 1 ≤ fuel) :
    ∃ w, retryWith options op after fuel = some (Result.nil, w) ∧
      w.calls = k + 1 ∧
      w.sleeps = (List.range k).map (fun j => (j + 1, D)) ∧
      w.sleeps.length = k ∧
      w.slept = (k : Int) * D := by
  have hsplit : fuel = (fuel - (k + 1)) + 1 + k := by omega
  have hlt : (k : Int) < options.MaxTries := by push_cast at hmax; omega
  have hretried := retryLoop_retried options op (after options.Timeout) k
    (fuel - (k + 1) + 1) 0 Effects.init
    (retried_from_start options op (after options.Timeout) k hlt hfail
      (fun j hj => hto j (by omega)))
  refine ⟨{ selects := k + 1, calls := k + 1,
            sleeps := (List.range k).map (fun j => (j + 1, D)) }, ?_, rfl, rfl, ?_, ?_⟩
  · rw [retryWith_eq, hsplit, hretried]
    simp only [Effects.init_selects, Effects.init_calls, Effects.init_sleeps, Nat.zero_add,
      List.nil_append]
    rw [retryLoop_success options op (after options.Timeout) (fuel - (k + 1)) k _
      (hto k (by omega)) hok]
    simp [retrySleeps, hsleep, hD]
  · simp
  · have hconst : (Prod.snd ∘ fun j : Nat => (j + 1, D)) = fun _ => D := rfl
    simp [Effects.slept, hconst]

/-- Witness of C8: two failures then a success, with `Sleep = 4`: three
invocations, a sleep of 4 after the first and after the second. -/
theorem retry_sleeps_after_each_failure_witness :
    ∃ w, retryWith
        ({ Timeout := 5, MaxTries := 3, Retryer := some errgoAny, Sleep := 4 } : retryOptions Nat)
        (fun k => if k < 2 then some 7 else none) (fun _ _ => false) 3
        = some (Result.nil, w) ∧
      w.calls = 2 + 1 ∧
      w.sleeps = (List.range 2).map (fun j => (j + 1, (4 : Int))) ∧
      w.sleeps.length = 2 ∧
      w.slept = ((2 : Nat) : Int) * 4 :=
  retry_sleeps_after_each_failure
    ({ Timeout := 5, MaxTries := 3, Retryer := some errgoAny, Sleep := 4 } : retryOptions Nat)
    (fun k => if k < 2 then some 7 else none) (fun _ _ => false) 3 2 4 (by decide) rfl
    (by decide) (fun j hj => ⟨7, by simp [hj], rfl⟩) (by decide) (fun _ _ => rfl) (by decide)

/-- C9: each option setter changes one field of the configuration and
leaves the other three as they were: `RetryTimeout d` sets `Timeout` to `d`,
`MaxTries n` sets `MaxTries` to `n`, `Retryer f` sets `Retryer` to `f`,
`Sleep d` sets `Sleep` to `d`; the same holds of the setters `Timeout`,
`MaxTries`, `RetryChecker` and `Sleep` of `options.go`. -/
theorem option_setters_change_one_field (E : Type) :
    (∀ (c : retryOptions E) (d : Int),
      (RetryTimeout d c).Timeout = d ∧ (RetryTimeout d c).MaxTries = c.MaxTries ∧
      (RetryTimeout d c).Retryer = c.Retryer ∧ (RetryTimeout d c).Sleep = c.Sleep) ∧
    (∀ (c : retryOptions E) (n : Int),
      (MaxTries n c).Timeout = c.Timeout ∧ (MaxTries n c).MaxTries = n ∧
      (MaxTries n c).Retryer = c.Retryer ∧ (MaxTries n c).Sleep = c.Sleep) ∧
    (∀ (c : retryOptions E) (f : Option (E → Bool)),
      (Retryer f c).Timeout = c.Timeout ∧ (Retryer f c).MaxTries = c.MaxTries ∧
      (Retryer f c).Retryer = f ∧ (Retryer f c).Sleep = c.Sleep) ∧
    (∀ (c : retryOptions E) (d : Int),
      (Sleep d c).Timeout = c.Timeout ∧ (Sleep d c).MaxTries = c.MaxTries ∧
      (Sleep d c).Retryer = c.Retryer ∧ (Sleep d c).Sleep = d) ∧
    (∀ (c : retry.retryOptions E) (d : Int),
      (retry.Timeout d c).Timeout = d ∧ (retry.Timeout d c).MaxTries = c.MaxTries ∧
      (retry.Timeout d c).Checker = c.Checker ∧ (retry.Timeout d c).Sleep = c.Sleep) ∧
    (∀ (c : retry.retryOptions E) (n : Int),
      (retry.MaxTries n c).Timeout = c.Timeout ∧ (retry.MaxTries n c).MaxTries = n ∧
      (retry.MaxTries n c).Checker = c.Checker ∧ (retry.MaxTries n c).Sleep = c.Sleep) ∧
    (∀ (c : retry.retryOptions E) (f : Option (E → Bool)),
      (retry.RetryChecker f c).Timeout = c.Timeout ∧
      (retry.RetryChecker f c).MaxTries = c.MaxTries ∧
      (retry.RetryChecker f c).Checker = f ∧ (retry.RetryChecker f c).Sleep = c.Sleep) ∧
    (∀ (c : retry.retryOptions E) (d : Int),
      (retry.Sleep d c).Timeout = c.Timeout ∧ (retry.Sleep d c).MaxTries = c.MaxTries ∧
      (retry.Sleep d c).Checker = c.Checker ∧ (retry.Sleep d c).Sleep = d) :=
  ⟨fun _ _ => ⟨rfl, rfl, rfl, rfl⟩, fun _ _ => ⟨rfl, rfl, rfl, rfl⟩,
    fun _ _ => ⟨rfl, rfl, rfl, rfl⟩, fun _ _ => ⟨rfl, rfl, rfl, rfl⟩,
    fun _ _ => ⟨rfl, rfl, rfl, rfl⟩, fun _ _ => ⟨rfl, rfl, rfl, rfl⟩,
    fun _ _ => ⟨rfl, rfl, rfl, rfl⟩, fun _ _ => ⟨rfl, rfl, rfl, rfl⟩⟩

/-- C10: under any configuration, for any operation and any behaviour of the
channel, `retry` returns, and it returns nil exactly when it invoked the
operation at least once and the last invocation returned nil. Any other
result is `TimeoutError`, or is built from the error `e` of the last
invocation: `e` masked when the predicate rejects it, `MaxRetriesReached`
around `e` when the predicate accepts it and the counter has reached
`MaxTries`. -/
theorem retry_never_swallows_error {E : Type} (options : retryOptions E)
    (op : Nat → Option E) (after : Int → Nat → Bool) (fuel : Nat)
    (h1 : 1 ≤ fuel) (hfuel : options.MaxTries.toNat ≤ fuel) :
    ∃ r w, retryWith options op after fuel = some (r, w) ∧
      (r = Result.nil ↔ 1 ≤ w.calls ∧ op (w.calls - 1) = none) ∧
      (r ≠ Result.nil →
        r = Result.maskTimeoutError ∨
        ∃ e, 1 ≤ w.calls ∧ op (w.calls - 1) = some e ∧
          ((retryerAccepts options e = false ∧ r = Result.mask e) ∨
           (retryerAccepts options e = true ∧ options.MaxTries ≤ (w.calls : Int) ∧
            r = Result.withCausefMaxRetriesReached e w.calls options.MaxTries))) := by
  obtain ⟨k, r, w, hrun, hshape⟩ := retryWith_finishes options op after fuel h1 hfuel
  refine ⟨r, w, hrun, ?_⟩
  rcases hshape.last with ⟨_, hr, hc⟩ | ⟨_, hc, hlast⟩
  · -- the channel was ready: the invocation before it, if any, had failed
    simp only [Effects.init_calls, Nat.zero_add] at hc
    subst hr
    refine ⟨⟨(fun h => by cases h), ?_⟩, fun _ => Or.inl rfl⟩
    rintro ⟨hpos, hnone⟩
    obtain ⟨_, e, he, _, _⟩ := hshape.retried (k - 1) (by omega)
    simp only [Effects.init_calls, Nat.zero_add] at he
    rw [hc, he] at hnone
    cases hnone
  · simp only [Effects.init_calls, Nat.zero_add] at hc hlast
    have hidx : w.calls - 1 = k := by omega
    have hpos : 1 ≤ w.calls := by omega
    rw [hidx]
    rcases hlast with ⟨hnone, hr⟩ | ⟨e, he, hrej, hr⟩ | ⟨e, he, hacc, hm, hr⟩
    · subst hr
      exact ⟨⟨fun _ => ⟨hpos, hnone⟩, fun _ => rfl⟩, fun h => absurd rfl h⟩
    · subst hr
      refine ⟨⟨(fun h => by cases h), ?_⟩, fun _ => Or.inr ⟨e, hpos, he, Or.inl ⟨hrej, rfl⟩⟩⟩
      rintro ⟨_, hnone⟩
      rw [he] at hnone
      cases hnone
    · subst hr
      refine ⟨⟨(fun h => by cases h), ?_⟩, fun _ => Or.inr ⟨e, hpos, he, Or.inr ⟨hacc, ?_, ?_⟩⟩⟩
      · rintro ⟨_, hnone⟩
        rw [he] at hnone
        cases hnone
      · rw [hc]; simpa using hm
      · rw [hc]

/-- Witness of C10: one try allowed and an operation that fails: the result
is not nil. -/
theorem retry_never_swallows_error_witness :
    ∃ r w, retryWith
        ({ Timeout := 5, MaxTries := 1, Retryer := some errgoAny, Sleep := 0 } : retryOptions Nat)
        (fun _ => some 7) (fun _ _ => false) 1 = some (r, w) ∧
      (r = Result.nil ↔ 1 ≤ w.calls ∧ (fun _ => some 7 : Nat → Option Nat) (w.calls - 1) = none) ∧
      (r ≠ Result.nil →
        r = Result.maskTimeoutError ∨
        ∃ e, 1 ≤ w.calls ∧ (fun _ => some 7 : Nat → Option Nat) (w.calls - 1) = some e ∧
          ((retryerAccepts
              ({ Timeout := 5, MaxTries := 1, Retryer := some errgoAny, Sleep := 0 } :
                retryOptions Nat) e = false ∧ r = Result.mask e) ∨
           (retryerAccepts
              ({ Timeout := 5, MaxTries := 1, Retryer := some errgoAny, Sleep := 0 } :
                retryOptions Nat) e = true ∧ (1 : Int) ≤ (w.calls : Int) ∧
            r = Result.withCausefMaxRetriesReached e w.calls 1))) :=
  retry_never_swallows_error
    ({ Timeout := 5, MaxTries := 1, Retryer := some errgoAny, Sleep := 0 } : retryOptions Nat)
    (fun _ => some 7) (fun _ _ => false) 1 (by decide) (by decide)

/-! ## More fuel changes nothing, and every returned run has a shape -/

theorem retryLoop_fuel_le {E : Type} (options : retryOptions E) (op : Nat → Option E)
    (timeout : Nat → Bool) :
    ∀ (fuel fuel2 t : Nat) (w : Effects) (x : Result E × Effects), fuel ≤ fuel2 →
      retryLoop options op timeout fuel t w = some x →
      retryLoop options op timeout fuel2 t w = some x := by
  intro fuel
  induction fuel with
  | zero =>
    intro fuel2 t w x _ h
    rw [retryLoop_zero] at h
    cases h
  | succ fuel ih =>
    intro fuel2 t w x hle h
    obtain ⟨fuel2, rfl⟩ : ∃ n, fuel2 = n + 1 := ⟨fuel2 - 1, by omega⟩
    by_cases hto : timeout w.selects = true
    · rw [retryLoop_ready options op timeout fuel t w hto] at h
      rw [retryLoop_ready options op timeout fuel2 t w hto]
      exact h
    · have hto2 : timeout w.selects = false := by simpa using hto
      cases hop : op w.calls with
      | none =>
        rw [retryLoop_success options op timeout fuel t w hto2 hop] at h
        rw [retryLoop_success options op timeout fuel2 t w hto2 hop]
        exact h
      | some e =>
        cases hr : retryerAccepts options e with
        | false =>
          rw [retryLoop_rejected options op timeout fuel t w e hto2 hop hr] at h
          rw [retryLoop_rejected options op timeout fuel2 t w e hto2 hop hr]
          exact h
        | true =>
          by_cases hm : options.MaxTries ≤ ((t + 1 : Nat) : Int)
          · rw [retryLoop_exhausted options op timeout fuel t w e hto2 hop hr hm] at h
            rw [retryLoop_exhausted options op timeout fuel2 t w e hto2 hop hr hm]
            exact h
          · have hm2 : ((t + 1 : Nat) : Int) < options.MaxTries := not_le.mp hm
            rw [retryLoop_again options op timeout fuel t w e hto2 hop hr hm2] at h
            rw [retryLoop_again options op timeout fuel2 t w e hto2 hop hr hm2]
            exact ih fuel2 (t + 1) _ x (by omega) h

theorem retryWith_shape {E : Type} (options : retryOptions E) (op : Nat → Option E)
    (after : Int → Nat → Bool) (fuel : Nat) (r : Result E) (w : Effects)
    (h : retryWith options op after fuel = some (r, w)) :
    ∃ k, RunShape options op (after options.Timeout) 0 Effects.init k r w := by
  obtain ⟨k, r2, w2, hrun, hshape⟩ := retryWith_finishes options op after
    (fuel + 1 + options.MaxTries.toNat) (by omega) (by omega)
  have hmore := retryLoop_fuel_le options op (after options.Timeout) fuel
    (fuel + 1 + options.MaxTries.toNat) 0 Effects.init (r, w) (by omega) h
  rw [retryWith_eq, hmore] at hrun
  cases hrun
  exact ⟨k, hshape⟩

/-- The number of retried iterations of a run is below `MaxTries`, unless
there is none. -/
theorem RunShape.retried_lt {E : Type} {options : retryOptions E} {op : Nat → Option E}
    {timeout : Nat → Bool} {w w2 : Effects} {k : Nat} {r : Result E}
    (h : RunShape options op timeout 0 w k r w2) (hk : 1 ≤ k) :
    (k : Int) < options.MaxTries := by
  obtain ⟨_, _, _, _, hlt⟩ := h.retried (k - 1) (by omega)
  have : 0 + (k - 1) + 1 = k := by omega
  rw [this] at hlt
  exact hlt

/-- C11: under `MaxTries ≥ 1`, whenever `retry` returns `MaxRetriesReached`,
the error it is built around is the one the last invocation of the operation
returned, and the attempt count of its message is the number of invocations
made, which is `MaxTries`; the limit of the message is `MaxTries` too. -/
theorem retry_exhaustion_carries_last_error {E : Type} (options : retryOptions E)
    (op : Nat → Option E) (after : Int → Nat → Bool) (fuel : Nat)
    (e : E) (c : Nat) (m : Int) (w : Effects) (hmax : 1 ≤ options.MaxTries)
    (h : retryWith options op after fuel
      = some (Result.withCausefMaxRetriesReached e c m, w)) :
    1 ≤ w.calls ∧ op (w.calls - 1) = some e ∧ c = w.calls ∧
      (c : Int) = options.MaxTries ∧ m = options.MaxTries := by
  obtain ⟨k, hshape⟩ := retryWith_shape options op after fuel _ w h
  rcases hshape.last with ⟨_, hr, _⟩ | ⟨_, hc, hlast⟩
  · cases hr
  · simp only [Effects.init_calls, Nat.zero_add] at hc hlast
    rcases hlast with ⟨_, hr⟩ | ⟨_, _, _, hr⟩ | ⟨e2, he, _, hm, hr⟩
    · cases hr
    · cases hr
    · cases hr
      have hidx : w.calls - 1 = k := by omega
      have hcount : ((k + 1 : Nat) : Int) = options.MaxTries := by
        rcases Nat.eq_zero_or_pos k with hk | hk
        · subst hk
          simp only [Nat.zero_add] at hm ⊢
          push_cast at hm ⊢
          omega
        · have := hshape.retried_lt hk
          push_cast at hm ⊢
          omega
      refine ⟨by omega, by rw [hidx]; exact he, hc.symm, hcount, rfl⟩

/-- Witness of C11: three tries, an operation whose errors differ from one
invocation to the next; the run ends in `MaxRetriesReached` around the third
error. -/
theorem retry_exhaustion_carries_last_error_witness :
    1 ≤ (⟨3, 3, []⟩ : Effects).calls ∧
      (fun k => some (10 + k) : Nat → Option Nat) ((⟨3, 3, []⟩ : Effects).calls - 1) = some 12 ∧
      3 = (⟨3, 3, []⟩ : Effects).calls ∧ ((3 : Nat) : Int) = 3 ∧ (3 : Int) = 3 :=
  retry_exhaustion_carries_last_error
    ({ Timeout := 5, MaxTries := 3, Retryer := some errgoAny, Sleep := 0 } : retryOptions Nat)
    (fun k => some (10 + k)) (fun _ _ => false) 3 12 3 3 ⟨3, 3, []⟩ (by decide) (by decide)

/-- C12: when the first `k` invocations fail with errors the predicate
accepts (`k < MaxTries`), the channel not being ready at the selects before
them, and the channel is ready at the select that comes before invocation
`k + 1`, `retry` returns `TimeoutError` after exactly `k` invocations, and
that result is built from none of the errors of the operation. -/
theorem retry_deadline_before_attempt {E : Type} (options : retryOptions E)
    (op : Nat → Option E) (after : Int → Nat → Bool) (fuel k : Nat)
    (hmax : (k : Int) < options.MaxTries)
    (hfail : ∀ j, j < k → ∃ e, op j = some e ∧ retryerAccepts options e = true)
    (hto : ∀ j, j < k → after options.Timeout j = false)
    (hready : after options.Timeout k = true)
    (hfuel : k + 1 ≤ fuel) :
    ∃ w, retryWith options op after fuel = some (Result.maskTimeoutError, w) ∧
      w.calls = k ∧ w.selects = k + 1 ∧
      (Result.maskTimeoutError : Result E).lastError? = none := by
  have hsplit : fuel = (fuel - (k + 1)) + 1 + k := by omega
  have hretried := retryLoop_retried options op (after options.Timeout) k
    (fuel - (k + 1) + 1) 0 Effects.init
    (retried_from_start options op (after options.Timeout) k hmax hfail hto)
  refine ⟨{ selects := k + 1, calls := k, sleeps := retrySleeps options.Sleep 0 k },
    ?_, rfl, rfl, rfl⟩
  rw [retryWith_eq, hsplit, hretried]
  simp only [Effects.init_selects, Effects.init_calls, Effects.init_sleeps, Nat.zero_add,
    List.nil_append]
  rw [retryLoop_ready options op (after options.Timeout) (fuel - (k + 1)) k _ hready]

/-- Witness of C12: five tries allowed, the timeout of 25 reached after two
failed invocations of 10 each plus the wait between them. -/
theorem retry_deadline_before_attempt_witness :
    ∃ w, retryWith
        ({ Timeout := 25, MaxTries := 5, Retryer := some errgoAny, Sleep := 3 } :
          retryOptions Nat)
        (fun _ => some 7) (timeAfter (fun k => 13 * (k : Int))) 3
        = some (Result.maskTimeoutError, w) ∧
      w.calls = 2 ∧ w.selects = 2 + 1 ∧
      (Result.maskTimeoutError : Result Nat).lastError? = none :=
  retry_deadline_before_attempt
    ({ Timeout := 25, MaxTries := 5, Retryer := some errgoAny, Sleep := 3 } : retryOptions Nat)
    (fun _ => some 7) (timeAfter (fun k => 13 * (k : Int))) 3 2 (by decide)
    (fun _ _ => ⟨7, rfl, rfl⟩)
    (fun j hj => by
      have h2 : j = 0 ∨ j = 1 := by omega
      rcases h2 with rfl | rfl <;> decide)
    (by decide) (by decide)

/-- C13: once the select before an invocation has found the channel not
ready, the outcome of that invocation decides the result, whatever the
channel does from then on (so also when it becomes ready while the operation
runs): nil when the invocation succeeds, its error masked when the predicate
rejects it, `MaxRetriesReached` when the predicate accepts it and the counter
has reached `MaxTries`. And whenever `retry` returns `TimeoutError`, the last
thing it did was a select that found the channel ready; whenever it returns
anything else, no select followed the last invocation. -/
theorem retry_timeout_only_between_tries {E : Type} (options : retryOptions E)
    (op : Nat → Option E) (after : Int → Nat → Bool) (fuel k : Nat)
    (hretried : ∀ j, j < k → after options.Timeout j = false ∧
      ∃ e, op j = some e ∧ retryerAccepts options e = true ∧
        ((j + 1 : Nat) : Int) < options.MaxTries)
    (hpass : after options.Timeout k = false)
    (hfuel : k + 1 ≤ fuel) :
    (op k = none →
      retryWith options op after fuel = some (Result.nil,
        { selects := k + 1, calls := k + 1, sleeps := retrySleeps options.Sleep 0 k })) ∧
    (∀ e, op k = some e → retryerAccepts options e = false →
      retryWith options op after fuel = some (Result.mask e,
        { selects := k + 1, calls := k + 1, sleeps := retrySleeps options.Sleep 0 k })) ∧
    (∀ e, op k = some e → retryerAccepts options e = true →
      options.MaxTries ≤ ((k + 1 : Nat) : Int) →
      retryWith options op after fuel
        = some (Result.withCausefMaxRetriesReached e (k + 1) options.MaxTries,
        { selects := k + 1, calls := k + 1, sleeps := retrySleeps options.Sleep 0 k })) ∧
    (∀ (fuel2 : Nat) (r : Result E) (w : Effects),
      retryWith options op after fuel2 = some (r, w) →
      (r = Result.maskTimeoutError →
        w.selects = w.calls + 1 ∧ after options.Timeout w.calls = true) ∧
      (r ≠ Result.maskTimeoutError →
        w.selects = w.calls ∧ after options.Timeout (w.calls - 1) = false)) := by
  have hsplit : fuel = (fuel - (k + 1)) + 1 + k := by omega
  have hretried2 := retryLoop_retried options op (after options.Timeout) k
    (fuel - (k + 1) + 1) 0 Effects.init
    (fun j hj => by
      obtain ⟨h0, e, he, hr, hm⟩ := hretried j hj
      refine ⟨by simpa using h0, e, by simpa using he, hr, ?_⟩
      have : 0 + j + 1 = j + 1 := by omega
      rw [this]; exact hm)
  have hrun : retryWith options op after fuel
      = retryLoop options op (after options.Timeout) (fuel - (k + 1) + 1) k
          { selects := k, calls := k, sleeps := retrySleeps options.Sleep 0 k } := by
    rw [retryWith_eq, hsplit, hretried2]
    simp only [Effects.init_selects, Effects.init_calls, Effects.init_sleeps, Nat.zero_add,
      List.nil_append]
    congr 1
    omega
  refine ⟨?_, ?_, ?_, ?_⟩
  · intro hok
    rw [hrun, retryLoop_success options op (after options.Timeout) _ k _ hpass hok]
  · intro e he hrej
    rw [hrun, retryLoop_rejected options op (after options.Timeout) _ k _ e hpass he hrej]
  · intro e he hacc hm
    rw [hrun, retryLoop_exhausted options op (after options.Timeout) _ k _ e hpass he hacc hm]
  · intro fuel2 r w h
    obtain ⟨n, hshape⟩ := retryWith_shape options op after fuel2 r w h
    have hsel := hshape.selects
    simp only [Effects.init_selects, Nat.zero_add] at hsel
    rcases hshape.last with ⟨hready, hr, hc⟩ | ⟨hnot, hc, hlast⟩
    · simp only [Effects.init_selects, Effects.init_calls, Nat.zero_add] at hready hc
      subst hr
      refine ⟨fun _ => ⟨by omega, by rw [hc]; exact hready⟩, fun hne => absurd rfl hne⟩
    · simp only [Effects.init_selects, Effects.init_calls, Nat.zero_add] at hnot hc hlast
      have hidx : w.calls - 1 = n := by omega
      refine ⟨?_, fun _ => ⟨by omega, by rw [hidx]; exact hnot⟩⟩
      intro hr
      subst hr
      rcases hlast with ⟨_, hr⟩ | ⟨_, _, _, hr⟩ | ⟨_, _, _, _, hr⟩ <;> cases hr

/-- Witness of C13: after one failed invocation the select at 13 finds the
timeout of 25 not reached; it passes during the second invocation, which
ends at 40 and succeeds. -/
theorem retry_timeout_only_between_tries_witness :
    retryWith
      ({ Timeout := 25, MaxTries := 3, Retryer := some errgoAny, Sleep := 0 } : retryOptions Nat)
      (fun k => if k < 1 then some 7 else none)
      (timeAfter (fun k => if k < 2 then 13 * (k : Int) else 40)) 2
      = some (Result.nil, { selects := 1 + 1, calls := 1 + 1, sleeps := retrySleeps 0 0 1 }) :=
  (retry_timeout_only_between_tries
    ({ Timeout := 25, MaxTries := 3, Retryer := some errgoAny, Sleep := 0 } : retryOptions Nat)
    (fun k => if k < 1 then some 7 else none)
    (timeAfter (fun k => if k < 2 then 13 * (k : Int) else 40)) 2 1
    (fun j hj => by
      have h0 : j = 0 := by omega
      subst h0
      exact ⟨by decide, 7, rfl, rfl, by decide⟩)
    (by decide) (by decide)).1 rfl

/-- C14: under any configuration (any `MaxTries`, `Timeout`, predicate and
`Sleep`), for any operation whose invocations return and any behaviour of
the channel, also one that is never ready, `retry` returns: `max 1 MaxTries`
iterations are enough, and the run makes at most that many. -/
theorem retry_terminates {E : Type} (options : retryOptions E) (op : Nat → Option E)
    (after : Int → Nat → Bool) :
    ∃ r w, (∀ fuel, max 1 options.MaxTries.toNat ≤ fuel →
        retryWith options op after fuel = some (r, w)) ∧
      w.selects ≤ max 1 options.MaxTries.toNat ∧ w.calls ≤ w.selects := by
  obtain ⟨k, r, w, hrun, hshape⟩ := retryWith_finishes options op after
    (max 1 options.MaxTries.toNat) (le_max_left _ _) (le_max_right _ _)
  refine ⟨r, w, ?_, ?_, ?_⟩
  · intro fuel hfuel
    exact retryLoop_fuel_le options op (after options.Timeout) _ fuel 0 Effects.init (r, w)
      hfuel hrun
  · have hsel := hshape.selects
    simp only [Effects.init_selects, Nat.zero_add] at hsel
    rw [hsel]
    rcases Nat.eq_zero_or_pos k with hk | hk
    · subst hk; exact le_max_left _ _
    · have hlt := hshape.retried_lt hk
      have : k + 1 ≤ options.MaxTries.toNat := by omega
      exact le_trans this (le_max_right _ _)
  · have hsel := hshape.selects
    simp only [Effects.init_selects, Nat.zero_add] at hsel
    rcases hshape.last with ⟨_, _, hc⟩ | ⟨_, hc, _⟩ <;>
      simp only [Effects.init_calls, Nat.zero_add] at hc <;> omega

/-- C15: under `MaxTries ≤ 0`, when the channel is not ready at the first
select, `retry` invokes the operation exactly once; when that invocation
fails with an error the predicate accepts, the result is `MaxRetriesReached`
with the attempt count 1, which is above `MaxTries`. -/
theorem retry_nonpositive_maxTries_tries_once {E : Type} (options : retryOptions E)
    (op : Nat → Option E) (after : Int → Nat → Bool) (fuel : Nat)
    (hmax : options.MaxTries ≤ 0) (hto : after options.Timeout 0 = false)
    (hfuel : 1 ≤ fuel) :
    ∃ r w, retryWith options op after fuel = some (r, w) ∧ w.calls = 1 ∧
      (∀ e, op 0 = some e → retryerAccepts options e = true →
        r = Result.withCausefMaxRetriesReached e 1 options.MaxTries ∧
        options.MaxTries < ((1 : Nat) : Int)) := by
  obtain ⟨fuel, rfl⟩ : ∃ n, fuel = n + 1 := ⟨fuel - 1, by omega⟩
  have hm : options.MaxTries ≤ ((0 + 1 : Nat) : Int) := by push_cast; omega
  cases hop : op 0 with
  | none =>
    refine ⟨Result.nil, { selects := 1, calls := 1, sleeps := [] }, ?_, rfl, ?_⟩
    · rw [retryWith_eq,
        retryLoop_success options op (after options.Timeout) fuel 0 Effects.init hto hop]
      rfl
    · intro e he
      cases he
  | some e =>
    cases hr : retryerAccepts options e with
    | false =>
      refine ⟨Result.mask e, { selects := 1, calls := 1, sleeps := [] }, ?_, rfl, ?_⟩
      · rw [retryWith_eq,
          retryLoop_rejected options op (after options.Timeout) fuel 0 Effects.init e hto hop hr]
        rfl
      · intro e2 he2 hacc
        cases he2
        rw [hr] at hacc
        cases hacc
    | true =>
      refine ⟨Result.withCausefMaxRetriesReached e 1 options.MaxTries,
        { selects := 1, calls := 1, sleeps := [] }, ?_, rfl, ?_⟩
      · rw [retryWith_eq,
          retryLoop_exhausted options op (after options.Timeout) fuel 0 Effects.init e hto hop
            hr hm]
        rfl
      · intro e2 he2 _
        cases he2
        exact ⟨rfl, by push_cast; omega⟩

/-- Witness of C15: `MaxTries = -2` and an operation that always fails. -/
theorem retry_nonpositive_maxTries_tries_once_witness :
    ∃ r w, retryWith
        ({ Timeout := 5, MaxTries := -2, Retryer := some errgoAny, Sleep := 0 } :
          retryOptions Nat)
        (fun _ => some 7) (fun _ _ => false) 1 = some (r, w) ∧ w.calls = 1 ∧
      (∀ e, (fun _ => some 7 : Nat → Option Nat) 0 = some e →
        retryerAccepts
          ({ Timeout := 5, MaxTries := -2, Retryer := some errgoAny, Sleep := 0 } :
            retryOptions Nat) e = true →
        r = Result.withCausefMaxRetriesReached e 1 (-2) ∧ (-2 : Int) < ((1 : Nat) : Int)) :=
  retry_nonpositive_maxTries_tries_once
    ({ Timeout := 5, MaxTries := -2, Retryer := some errgoAny, Sleep := 0 } : retryOptions Nat)
    (fun _ => some 7) (fun _ _ => false) 1 (by decide) rfl (by decide)

/-! ## The guard of the predicate, and the options -/

theorem retryCondition_eq {E : Type} (options : retryOptions E) (err : E) :
    retryCondition options err = some (retryerAccepts options err) := by
  unfold retryCondition retryerAccepts callFunc
  cases options.Retryer <;> simp

theorem newRetryOptions_append {E : Type} (l1 l2 : List (RetryOption E)) :
    newRetryOptions (l1 ++ l2)
      = l2.foldl (fun state option => option state) (newRetryOptions l1) := by
  unfold newRetryOptions
  rw [List.foldl_append]

theorem newRetryOptions_concat {E : Type} (l : List (RetryOption E)) (o : RetryOption E) :
    newRetryOptions (l ++ [o]) = o (newRetryOptions l) := by
  rw [newRetryOptions_append]
  rfl

theorem Setter.toOption_comm {E : Type} (a b : Setter E) (h : a.field ≠ b.field)
    (c : retryOptions E) : b.toOption (a.toOption c) = a.toOption (b.toOption c) := by
  cases a <;> cases b <;> first | rfl | exact absurd rfl h

theorem Setter.toOption_twice {E : Type} (a : Setter E) (c : retryOptions E) :
    a.toOption (a.toOption c) = a.toOption c := by
  cases a <;> rfl

theorem lastSetterWins_concat {E : Type} (l : List (Setter E)) (a : Setter E) :
    lastSetterWins (l ++ [a]) = a.toOption (lastSetterWins l) := by
  cases a <;>
    simp [lastSetterWins, lastTimeout, lastMaxTries, lastRetryer, lastSleep,
      List.findSome?_cons, Setter.toOption, RetryTimeout, MaxTries, Retryer, Sleep]

/-- C16, as amended: with the predicate set to nil by `Retryer(nil)`, whatever
the rest of the configuration (any `MaxTries`), when the channel is not
ready at the first select and the first invocation fails, `retry` invokes
the operation exactly once and returns its error masked, not
`MaxRetriesReached`; the condition of the loop yields false without calling
the nil predicate, and under no configuration does it call a nil
predicate. -/
theorem retry_nil_retryer_returns_error {E : Type} (c : retryOptions E)
    (op : Nat → Option E) (after : Int → Nat → Bool) (fuel : Nat) (e : E)
    (hto : after (Retryer none c).Timeout 0 = false) (hop : op 0 = some e)
    (hfuel : 1 ≤ fuel) :
    retryWith (Retryer none c) op after fuel
        = some (Result.mask e, { selects := 1, calls := 1, sleeps := [] }) ∧
      (∀ err : E, retryCondition (Retryer none c) err = some false) ∧
      (∀ (options : retryOptions E) (err : E), retryCondition options err ≠ none) := by
  have hrej : retryerAccepts (Retryer none c) e = false := rfl
  obtain ⟨fuel, rfl⟩ : ∃ n, fuel = n + 1 := ⟨fuel - 1, by omega⟩
  refine ⟨?_, fun _ => rfl, fun options err h => ?_⟩
  · rw [retryWith_eq,
      retryLoop_rejected (Retryer none c) op (after (Retryer none c).Timeout) fuel 0
        Effects.init e hto hop hrej]
    rfl
  · rw [retryCondition_eq] at h
    cases h

/-- Witness of C16 as amended: nine tries allowed, no predicate, an operation
that always fails. -/
theorem retry_nil_retryer_returns_error_witness :
    retryWith
        (Retryer none ({ Timeout := 5, MaxTries := 9, Retryer := some errgoAny, Sleep := 0 } :
          retryOptions Nat))
        (fun _ => some 7) (fun _ _ => false) 9
        = some (Result.mask 7, { selects := 1, calls := 1, sleeps := [] }) ∧
      (∀ err : Nat, retryCondition
        (Retryer none ({ Timeout := 5, MaxTries := 9, Retryer := some errgoAny, Sleep := 0 } :
          retryOptions Nat)) err = some false) ∧
      (∀ (options : retryOptions Nat) (err : Nat), retryCondition options err ≠ none) :=
  retry_nil_retryer_returns_error
    ({ Timeout := 5, MaxTries := 9, Retryer := some errgoAny, Sleep := 0 } : retryOptions Nat)
    (fun _ => some 7) (fun _ _ => false) 9 7 rfl rfl (by decide)

/-- Counterexample to C16 as stated: with the predicate set to nil and
`Timeout = 0`, an operation whose every invocation fails is not invoked at
all, and the result is `TimeoutError`, not the error of the operation. -/
theorem retry_nil_retryer_counterexample :
    (newRetryOptions [RetryTimeout 0, Retryer none] : retryOptions Nat).Retryer.isNone = true ∧
      retry (fun _ => some 7) ([RetryTimeout 0, Retryer none] : List (RetryOption Nat))
        (timeAfter (fun _ => 0)) 3
        = some (Result.maskTimeoutError, { selects := 1, calls := 0, sleeps := [] }) ∧
      retry (fun _ => some 7) ([RetryTimeout 0, Retryer none] : List (RetryOption Nat))
        (timeAfter (fun _ => 0)) 3
        ≠ some (Result.mask 7, { selects := 1, calls := 1, sleeps := [] }) := by
  decide

/-- C17: `newRetryOptions` starts from the defaults and applies the options
from left to right, so for every list of setters each field ends with the
value of the last setter that targets it, or with its default when none
does; two adjacent setters that target different fields can be swapped, and
a setter repeated in place can be given once. -/
theorem newRetryOptions_last_setter_wins (E : Type) :
    (∀ (l : List (RetryOption E)) (o : RetryOption E),
      newRetryOptions (l ++ [o]) = o (newRetryOptions l)) ∧
    (∀ l : List (Setter E), newRetryOptions (l.map Setter.toOption) = lastSetterWins l) ∧
    (∀ (a b : Setter E) (before later : List (Setter E)), a.field ≠ b.field →
      newRetryOptions ((before ++ a :: b :: later).map Setter.toOption)
        = newRetryOptions ((before ++ b :: a :: later).map Setter.toOption)) ∧
    (∀ (a : Setter E) (before later : List (Setter E)),
      newRetryOptions ((before ++ a :: a :: later).map Setter.toOption)
        = newRetryOptions ((before ++ a :: later).map Setter.toOption)) := by
  refine ⟨newRetryOptions_concat, ?_, ?_, ?_⟩
  · intro l
    induction l using List.reverseRecOn with
    | nil => rfl
    | append_singleton l a ih =>
      rw [List.map_append, List.map_singleton, newRetryOptions_concat, ih,
        lastSetterWins_concat]
  · intro a b before later h
    simp only [List.map_append, List.map_cons, newRetryOptions_append, List.foldl_cons]
    rw [Setter.toOption_comm a b h]
  · intro a before later
    simp only [List.map_append, List.map_cons, newRetryOptions_append, List.foldl_cons]
    rw [Setter.toOption_twice]

/-- Witness of C17: `MaxTries(7)` and `Sleep(2)` swapped between two other
setters. -/
theorem newRetryOptions_last_setter_wins_witness :
    newRetryOptions (([Setter.maxTries 1] ++
        Setter.maxTries 7 :: Setter.sleep 2 :: [Setter.timeout 9]).map
          (Setter.toOption : Setter Nat → RetryOption Nat))
      = newRetryOptions (([Setter.maxTries 1] ++
        Setter.sleep 2 :: Setter.maxTries 7 :: [Setter.timeout 9]).map Setter.toOption) :=
  (newRetryOptions_last_setter_wins Nat).2.2.1 (Setter.maxTries 7) (Setter.sleep 2)
    [Setter.maxTries 1] [Setter.timeout 9] (by decide)

end service
